import Mathlib

/-!
Shallow embedding of the LWC reactive decorator-registration and wiring
subsystem:

* `packages/@lwc/engine/src/framework/decorators/register.ts`
  (`registerDecorators`, `getDecoratorsMeta`, reactive parameters,
  `buildConfigExtractor`);
* `packages/@lwc/engine/src/framework/decorators/api.ts`
  (`createPublicPropertyDescriptor`);
* `packages/@lwc/engine/src/framework/decorators/wire.ts`
  (`internalWireFieldDecorator`, `createFieldDataCallback`,
  `createConnector` batching);
* the wire-service `WireAdapter` event target and the deprecated
  `register` function.

JavaScript values are modelled by `JSValue`; objects are insertion-ordered
association lists from string keys to values.  Production builds are
modelled (`process.env.NODE_ENV === 'production'`), so the dev-only
assertion helpers are no-ops and are omitted.  Effects (the `valueObserved`
and `valueMutated` notification hooks) are returned explicitly as lists of
(component id, key) pairs.
-/

set_option autoImplicit false

namespace LWC

/-- Model of a JavaScript value: `undefined`, `null`, numbers, strings and
plain objects (insertion-ordered own enumerable properties). -/
inductive JSValue where
  | undefined
  | null
  | num (n : Int)
  | str (s : String)
  | obj (fields : List (String × JSValue))
deriving Repr

/-- Errors thrown by the embedded code; only `TypeError`-like throws occur
in the modelled paths. -/
inductive JsErr where
  | typeError (msg : String)
deriving Repr, DecidableEq

/-- Property write on a JavaScript object viewed as an association list:
overwrite an existing key in place, otherwise append the new key at the
end (JS insertion order). -/
def setKey {α : Type} (m : List (String × α)) (k : String) (v : α) :
    List (String × α) :=
  match m with
  | [] => [(k, v)]
  | (k', v') :: rest => if k' = k then (k, v) :: rest else (k', v') :: setKey rest k v

/-- Property read on a JavaScript object: a missing key reads as the
supplied default (`undefined` for `JSValue` objects). -/
def lookupD {α : Type} (m : List (String × α)) (k : String) (d : α) : α :=
  match m with
  | [] => d
  | (k', v') :: rest => if k' = k then v' else lookupD rest k d

/-- Property read returning `none` for a missing key: the shape used for
`in` tests, `!== undefined` tests and map lookups (`Map.prototype.get`). -/
def getOwn {κ α : Type} [DecidableEq κ] (m : List (κ × α)) (k : κ) : Option α :=
  match m with
  | [] => none
  | (k', v') :: rest => if k' = k then some v' else getOwn rest k

/-- Property access `v[key]` on a `JSValue`: objects look the key up
(missing keys read as `undefined`), `null` and `undefined` throw a
`TypeError`, and other primitives have no modelled own properties, so the
access reads as `undefined`. -/
def getMember (v : JSValue) (key : String) : Except JsErr JSValue :=
  match v with
  | .obj fields => .ok (lookupD fields key .undefined)
  | .undefined => .error (.typeError "Cannot read properties of undefined")
  | .null => .error (.typeError "Cannot read properties of null")
  | _ => .ok .undefined

/-- JavaScript loose comparison `value != null`: true exactly when the
value is neither `null` nor `undefined`. -/
def isNonNullish (v : JSValue) : Bool :=
  match v with
  | .undefined => false
  | .null => false
  | _ => true

/-- Character-list worker for `jsStringSplit`. -/
def splitCharsAux (sep : Char) : List Char → List Char → List String
  | [], acc => [String.mk acc.reverse]
  | c :: cs, acc =>
    if c = sep then String.mk acc.reverse :: splitCharsAux sep cs []
    else splitCharsAux sep cs (c :: acc)

/-- Model of `StringSplit.call(reference, '.')` (JS `String.prototype.split`
with a one-character separator): always returns at least one segment, and
`"".split('.')` is `[""]`. -/
def jsStringSplit (s : String) (sep : Char) : List String :=
  splitCharsAux sep s.toList []

/-! ## `register.ts`: reactive parameters and the config extractor -/

/-- Reactive parameter (register.ts): a dot-notation member property
expression decomposed into its head property and remaining tail. -/
structure ReactiveParameter where
  reference : String
  head : String
  tail : List String
deriving Repr, DecidableEq

/-- Embedding of `buildReactiveParameter` (register.ts): split the
reference on `'.'`; `ArrayShift` takes the head segment, the rest is the
tail.  The `refCache` memoisation is transparent (the function is pure),
so it is not modelled. -/
def buildReactiveParameter (reference : String) : ReactiveParameter :=
  let segments := jsStringSplit reference '.'
  { reference := reference
    head := segments.headD ""
    tail := segments.tail }

/-- Loop body of `getReactiveParameterValue` (register.ts): for each tail
segment, the source tests `if (value != null) return undefined;` and
otherwise evaluates `value[segment]` — with the comment "null or undefined
should produce undefined" above the test. -/
def reactiveTailLoop : JSValue → List String → Except JsErr JSValue
  | value, [] => .ok value
  | value, segment :: rest =>
    if isNonNullish value then .ok .undefined
    else do
      let v ← getMember value segment
      reactiveTailLoop v rest

/-- Embedding of `getReactiveParameterValue` (register.ts): read
`host[head]`, then run the tail loop exactly as written in the source. -/
def getReactiveParameterValue (host : JSValue) (rp : ReactiveParameter) :
    Except JsErr JSValue := do
  let value ← getMember host rp.head
  reactiveTailLoop value rp.tail

/-- Embedding of `buildReactiveParamsConfig` (register.ts): build a
reactive parameter per dynamic-param entry, preserving key order. -/
def buildReactiveParamsConfig (wireDefParams : List (String × String)) :
    List (String × ReactiveParameter) :=
  wireDefParams.map (fun p => (p.1, buildReactiveParameter p.2))

/-- Embedding of `computeReactiveParams` (register.ts), additionally
returning the list of host properties read (the `host[head]` reads that
would register reactive dependencies).  A throw from
`getReactiveParameterValue` aborts the `forEach` with the error after the
offending head was read. -/
def computeReactiveParams (host : JSValue)
    (paramsConfig : List (String × ReactiveParameter)) :
    Except JsErr (List (String × JSValue)) × List String :=
  match paramsConfig with
  | [] => (.ok [], [])
  | (key, rp) :: rest =>
    match getReactiveParameterValue host rp with
    | .error e => (.error e, [rp.head])
    | .ok v =>
      let (r, reads) := computeReactiveParams host rest
      (r.map (fun entries => (key, v) :: entries), rp.head :: reads)

/-- Model of `assign({}, src)`: copy own enumerable entries of `src` over
the accumulator, later sources overriding earlier ones. -/
def jsAssign (base : List (String × JSValue)) (src : List (String × JSValue)) :
    List (String × JSValue) :=
  src.foldl (fun acc p => setKey acc p.1 p.2) base

/-- Embedding of `buildConfigExtractor` (register.ts): the returned
extractor computes the reactive params and merges
`assign({}, cfgStatic, reactiveParams)` (an `undefined` static part
contributes nothing).  The second component is the list of host properties
read during extraction. -/
def buildConfigExtractor (cfgStatic : Option (List (String × JSValue)))
    (cfgDynamic : Option (List (String × String))) (host : JSValue) :
    Except JsErr (List (String × JSValue)) × List String :=
  let paramsConfig :=
    match cfgDynamic with
    | none => []
    | some d => buildReactiveParamsConfig d
  match computeReactiveParams host paramsConfig with
  | (.error e, reads) => (.error e, reads)
  | (.ok reactiveParams, reads) =>
    (.ok (jsAssign (jsAssign [] (cfgStatic.getD [])) reactiveParams), reads)

/-! ## The component VM and the property descriptors (`api.ts`, `wire.ts`) -/

/-- Slice of the component VM used by the property descriptors: the
component identity (for `valueObserved`/`valueMutated` notifications), the
public-property storage `cmpProps`, the wired/tracked field storage
`cmpFields`, and the lifecycle flags queried by the descriptors. -/
structure VM where
  component : Nat
  cmpProps : List (String × JSValue)
  cmpFields : List (String × JSValue)
  isDirty : Bool
  isBeingConstructed : Bool
deriving Repr

/-- Notification to the mutation tracker: a (component id, key) pair
passed to `valueObserved` or `valueMutated`. -/
abbrev Notification := Nat × String

/-- Embedding of the getter of `createPublicPropertyDescriptor` (api.ts):
while the owner is being constructed it returns `undefined` (after a
dev-only logged error) without observing; otherwise it notifies
`valueObserved(this, key)` and returns `vm.cmpProps[key]`.  The second
component lists the `valueObserved` notifications issued. -/
def publicPropertyGet (vm : VM) (key : String) : JSValue × List Notification :=
  if vm.isBeingConstructed then (.undefined, [])
  else (lookupD vm.cmpProps key .undefined, [(vm.component, key)])

/-- Embedding of the setter of `createPublicPropertyDescriptor` (api.ts):
store `newValue` in `vm.cmpProps[key]`, then notify
`valueMutated(this, key)` unless `vm.isDirty` is already true.  The second
component lists the `valueMutated` notifications issued. -/
def publicPropertySet (vm : VM) (key : String) (newValue : JSValue) :
    VM × List Notification :=
  let vm' := { vm with cmpProps := setKey vm.cmpProps key newValue }
  if vm.isDirty = false then (vm', [(vm.component, key)]) else (vm', [])

/-- Embedding of the getter of `internalWireFieldDecorator` (wire.ts):
notify `valueObserved(this, key)` and return `vm.cmpFields[key]`. -/
def wireFieldGet (vm : VM) (key : String) : JSValue × List Notification :=
  (lookupD vm.cmpFields key .undefined, [(vm.component, key)])

/-- Embedding of the setter of `internalWireFieldDecorator` (wire.ts):
the body is `/** ignore */` — the write is dropped and the VM is
untouched. -/
def wireFieldSet (vm : VM) (_key : String) (_v : JSValue) : VM :=
  vm

/-- Embedding of `createFieldDataCallback` (wire.ts).  The source closure
is `(value) => { cmpFields[name] = value; valueMutated(component, name); }`
where `name` is a free identifier: the wired field's key is never passed
in, so `name` resolves to the global `name` binding (`window.name`, the
empty string by default in a browser).  `globalName` is that ambient
binding.  The result is the updated VM and the `valueMutated`
notifications issued. -/
def createFieldDataCallback (globalName : String) (vm : VM) (value : JSValue) :
    VM × List Notification :=
  ({ vm with cmpFields := setKey vm.cmpFields globalName value },
   [(vm.component, globalName)])

/-! ## Wire connector config batching (`createConnector`, wire.ts) -/

/-- State of one wire connector's config recomputation machinery: the
`hasPendingConfig` flag, the number of batching micro-tasks currently
scheduled, and the number of `connector.update(configCallback(component))`
calls performed so far. -/
structure ConnectorState where
  hasPendingConfig : Bool
  pendingTasks : Nat
  updateCalls : Nat
deriving Repr, DecidableEq

/-- Connector state right after the initial synchronous
`ro.observe(() => connector.update(configCallback(component)))` pass: no
pending flag and no scheduled micro-task. -/
def connectorInitial : ConnectorState :=
  { hasPendingConfig := false, pendingTasks := 0, updateCalls := 0 }

/-- Embedding of the `ReactiveObserver` callback built in `createConnector`
(wire.ts): on a dependency-mutation notification, if `hasPendingConfig`
is false it is set and one micro-task (`Promise.resolve().then(...)`) is
scheduled; otherwise nothing happens. -/
def connectorNotifyMutation (s : ConnectorState) : ConnectorState :=
  if s.hasPendingConfig = false then
    { s with hasPendingConfig := true, pendingTasks := s.pendingTasks + 1 }
  else s

/-- Embedding of the batched micro-task body in `createConnector`
(wire.ts): clear `hasPendingConfig`, reset the reactive observer, and call
`connector.update(configCallback(component))` once. -/
def connectorRunBatchedTask (s : ConnectorState) : ConnectorState :=
  { hasPendingConfig := false
    pendingTasks := s.pendingTasks - 1
    updateCalls := s.updateCalls + 1 }

/-! ## The `WireAdapter` event target (wire service) -/

/-- Opaque identifier for a listener callback registered with the adapter
event target. -/
abbrev Listener := Nat

/-- Value stored under a key of the adapter's `contexting` record.  The
record is declared as `Record<string, ConfigListener[]>`, but
`ArrayPush.call(this.contexting, callback)` also stores bare listeners
under numeric-string keys and a number under `"length"`, so all three
shapes are representable. -/
inductive CtxVal where
  | listeners (ls : List Listener)
  | single (l : Listener)
  | num (n : Nat)
deriving Repr, DecidableEq

/-- State of one `WireAdapter` instance: whether a contextualizer was
supplied at construction, the `contexting` record, the uids passed to the
contextualizer so far, and the values delivered to the data callback. -/
structure WireAdapterState where
  hasContextualizer : Bool
  contexting : List (String × CtxVal)
  contextRequests : List String
  dataInvocations : List JSValue
deriving Repr

/-- State of a freshly constructed adapter:
`contexting = Object.create(null)`. -/
def wireAdapterNew (hasContextualizer : Bool) : WireAdapterState :=
  { hasContextualizer := hasContextualizer
    contexting := []
    contextRequests := []
    dataInvocations := [] }

/-- Coercion applied when `Array.prototype.push` reads the `length` of a
non-array receiver: a stored number is used as-is; an absent key reads
`undefined` and a listener or listener array coerces to `NaN`, all of
which `ToLength` turns into `0`. -/
def recordLength (m : List (String × CtxVal)) : Nat :=
  match getOwn m "length" with
  | some (.num n) => n
  | _ => 0

/-- Semantics of `ArrayPush.call(record, cb)` on a plain record: read
`record.length` (coerced via `ToLength`), store `cb` under the decimal
string of that index, and write back `length + 1`. -/
def arrayPushOnRecord (m : List (String × CtxVal)) (cb : Listener) :
    List (String × CtxVal) :=
  let len := recordLength m
  setKey (setKey m (toString len) (.single cb)) "length" (.num (len + 1))

/-- Events accepted by the adapter event target's `dispatchEvent`: a
`ValueChangedEvent` carrying a value, a `LinkContextEvent` carrying a uid
and a callback, or any other event object (identified by its `type`). -/
inductive WireEvent where
  | valueChanged (value : JSValue)
  | linkContext (uid : String) (callback : Listener)
  | other (type_ : String)

/-- Embedding of `eventTarget.dispatchEvent` (wire service `WireAdapter`):
a `ValueChangedEvent` feeds its value to the data callback; a
`LinkContextEvent`, when a contextualizer exists, stores the callback —
`if (this.contexting[uid] !== undefined)` the source executes
`ArrayPush.call(this.contexting, callback)` (pushing onto the record
itself), `else this.contexting[uid] = [callback]` — and then asks the
contextualizer for the uid; any other event throws.  Returns the new state
and the `false` cancellation signal. -/
def dispatchEvent (s : WireAdapterState) (evt : WireEvent) :
    Except JsErr (WireAdapterState × Bool) :=
  match evt with
  | .valueChanged value =>
    .ok ({ s with dataInvocations := s.dataInvocations ++ [value] }, false)
  | .linkContext uid callback =>
    if s.hasContextualizer then
      let contexting' :=
        if (getOwn s.contexting uid).isSome then
          arrayPushOnRecord s.contexting callback
        else
          setKey s.contexting uid (.listeners [callback])
      .ok ({ s with
              contexting := contexting'
              contextRequests := s.contextRequests ++ [uid] }, false)
    else
      .ok (s, false)
  | .other type_ => .error (.typeError ("Invalid event type " ++ type_ ++ "."))

/-- Embedding of `WireAdapter.context(uid, value)`: look up
`this.contexting[uid]`; when it is undefined nothing runs, and
`forEach.call(listeners, ...)` invokes each element of a listener array
with the value (a non-array value yields no iterations, since its
`length` coerces to `0` or addresses only holes).  Returns the list of
listeners invoked, in order. -/
def contextDeliver (s : WireAdapterState) (uid : String) : List Listener :=
  match getOwn s.contexting uid with
  | some (.listeners ls) => ls
  | _ => []

/-! ## The deprecated wire-service `register` function -/

/-- Model of an adapter id object passed to the deprecated `register`:
objects are always truthy, and the `adapter` property (when present)
holds an opaque class identifier. -/
structure AdapterIdObj where
  adapter : Option Nat
deriving Repr, DecidableEq

/-- Trace of one `register(adapterId, adapterEventTargetCallback)` call:
the messages of the `TypeError` objects that were constructed, the error
thrown (if any), and the adapter id object after the call. -/
structure RegisterTrace where
  constructedErrors : List String
  thrown : Option JsErr
  updated : AdapterIdObj
deriving Repr, DecidableEq

/-- Embedding of the deprecated wire-service `register` for an object
`adapterId`.  Each validation statement is a bare `new TypeError(...)`
expression: the error object is constructed and immediately discarded,
never thrown.  `if (!adapterId)` is never taken since an object is truthy.
The final statement unconditionally assigns a fresh adapter class to
`adapterId.adapter`. -/
def register (adapterId : AdapterIdObj) (callbackIsFunction : Bool)
    (freshAdapterClass : Nat) : RegisterTrace :=
  let errs0 : List String := []
  let errs1 :=
    if callbackIsFunction = false then
      errs0 ++ ["adapter factory must be a callable"]
    else errs0
  let errs2 :=
    if adapterId.adapter.isSome then
      errs1 ++ ["adapter id is already associated to an adapter factory"]
    else errs1
  { constructedErrors := errs2
    thrown := none
    updated := { adapterId with adapter := some freshAdapterClass } }

/-! ## `registerDecorators` and the decorator metadata registry -/

/-- Property descriptor installed on (or pre-existing in) a component
prototype.  Pre-existing author-declared descriptors are an accessor pair
or a data property; the remaining constructors are the descriptors the
registration orchestrator installs, each remembering the key it was built
for. -/
inductive Descriptor where
  | accessorPair (hasGetter hasSetter : Bool)
  | dataProp (isFn writable : Bool)
  | publicProperty (key : String)
  | publicAccessor (key : String)
  | wireField (key : String)
  | trackField (key : String)
  | observedField (key : String)
deriving Repr, DecidableEq

/-- Component prototype viewed as its own-property table. -/
abbrev Proto := List (String × Descriptor)

/-- Does the descriptor's `get` hold a function?  True for every
descriptor the framework installs (they are all get/set descriptors) and
for an author accessor pair with a getter; false for data properties. -/
def descriptorHasFunctionGet : Descriptor → Bool
  | .accessorPair hasGetter _ => hasGetter
  | .dataProp _ _ => false
  | _ => true

/-- Embedding of `createPublicAccessorDescriptor` (api.ts): destructuring
`const { get, ... } = descriptor` throws on an `undefined` descriptor, and
`if (!isFunction(get)) throw new TypeError()` rejects a non-function
getter (both also in production builds); otherwise the wrapping accessor
descriptor is produced. -/
def createPublicAccessorDescriptor (key : String)
    (descriptor : Option Descriptor) : Except JsErr Descriptor :=
  match descriptor with
  | none => .error (.typeError "Cannot destructure an undefined descriptor")
  | some d =>
    if descriptorHasFunctionGet d then .ok (.publicAccessor key)
    else .error (.typeError "")

/-- Compiler metadata for one wire declaration (`WireCompilerDef`,
register.ts): the adapter constructor (opaque id), the optional `method`
flag, and the static and dynamic config parts fed to
`buildConfigExtractor`. -/
structure WireCompilerDef where
  adapter : Nat
  method : Option Nat
  staticCfg : Option (List (String × JSValue))
  params : Option (List (String × String))
deriving Repr

/-- Compiler metadata passed to `registerDecorators`
(`RegisterDecoratorMeta`, register.ts).  Records are insertion-ordered
association lists; `fields` is a plain array of field names. -/
structure RegisterDecoratorMeta where
  publicProps : Option (List (String × Nat))
  publicMethods : Option (List String)
  wire : Option (List (String × WireCompilerDef))
  track : Option (List String)
  fields : Option (List String)
deriving Repr

/-- Aggregated decorator metadata stored in the registry
(`DecoratorMeta`, register.ts). -/
structure DecoratorMeta where
  apiMethods : List String
  apiFields : List String
  wiredMethods : List String
  wiredFields : List String
deriving Repr, DecidableEq

/-- Embedding of the `publicProps` loop of `registerDecorators`
(register.ts): `config > 0` takes the accessor path (wrapping the
prototype's own descriptor, which may throw), `config = 0` builds the
public-property descriptor; each iteration records the field name and
defines the property.  Returns the updated prototype and `apiFields` in
iteration order. -/
def installPublicProps (proto : Proto) (props : List (String × Nat)) :
    Except JsErr (Proto × List String) :=
  match props with
  | [] => .ok (proto, [])
  | (fieldName, config) :: rest => do
    let descriptor ←
      if config > 0 then
        createPublicAccessorDescriptor fieldName (getOwn proto fieldName)
      else
        pure (Descriptor.publicProperty fieldName)
    let proto' := setKey proto fieldName descriptor
    let (protoF, names) ← installPublicProps proto' rest
    .ok (protoF, fieldName :: names)

/-- Embedding of the `wire` loop of `registerDecorators` (register.ts):
`method === 1` records a wired method name (its stored metadata —
adapter and `buildConfigExtractor staticCfg params` — is kept in the wire
map, not on the prototype); otherwise the internal wire-field descriptor
is installed and the field name recorded.  Returns
(prototype, wiredMethods, wiredFields). -/
def installWire (proto : Proto) (wire : List (String × WireCompilerDef)) :
    Proto × List String × List String :=
  match wire with
  | [] => (proto, [], [])
  | (name, wd) :: rest =>
    if wd.method = some 1 then
      let (p, wm, wf) := installWire proto rest
      (p, name :: wm, wf)
    else
      let proto' := setKey proto name (.wireField name)
      let (p, wm, wf) := installWire proto' rest
      (p, wm, name :: wf)

/-- Embedding of the `track` loop of `registerDecorators` (register.ts):
install the tracked-field descriptor for each key of the `track` record. -/
def installTrack (proto : Proto) (track : List String) : Proto :=
  track.foldl (fun p fieldName => setKey p fieldName (.trackField fieldName)) proto

/-- Embedding of the `fields` loop of `registerDecorators` (register.ts).
The source iterates `for (const fieldName in fields)` where `fields` is an
array, so `fieldName` ranges over the array's index keys `"0"`, `"1"`, …
(as strings), not over the listed field names; each iteration installs
`createObservedFieldPropertyDescriptor(fieldName)` under that index key.
`installObservedFieldStep` is one iteration of that loop at index `i`. -/
def installObservedFieldStep (p : Proto) (i : Nat) : Proto :=
  setKey p (toString i) (.observedField (toString i))

/-- Fold of `installObservedFieldStep` over the array's index keys, the
shape of the `for...in` loop over the `fields` array. -/
def installObservedFields (proto : Proto) (fields : List String) : Proto :=
  (List.range fields.length).foldl installObservedFieldStep proto

/-- Embedding of `registerDecorators` (register.ts), production build: the
four metadata sections are processed in source order and the aggregated
`DecoratorMeta` record is produced (the caller stores it in the registry). -/
def registerDecorators (proto : Proto) (meta : RegisterDecoratorMeta) :
    Except JsErr (Proto × DecoratorMeta) := do
  let (proto1, apiFields) ←
    match meta.publicProps with
    | none => pure (proto, [])
    | some props => installPublicProps proto props
  let apiMethods := meta.publicMethods.getD []
  let (proto2, wiredMethods, wiredFields) :=
    match meta.wire with
    | none => (proto1, [], [])
    | some w => installWire proto1 w
  let proto3 :=
    match meta.track with
    | none => proto2
    | some t => installTrack proto2 t
  let proto4 :=
    match meta.fields with
    | none => proto3
    | some fs => installObservedFields proto3 fs
  .ok (proto4,
    { apiMethods := apiMethods
      apiFields := apiFields
      wiredMethods := wiredMethods
      wiredFields := wiredFields })

/-- Component class identity, the key of the decorator metadata registry. -/
abbrev ClassId := Nat

/-- Default record returned for classes with no registered decorators
(`defaultMeta`, register.ts). -/
def defaultMeta : DecoratorMeta :=
  { apiMethods := []
    apiFields := []
    wiredMethods := []
    wiredFields := [] }

/-- Embedding of `getDecoratorsMeta` (register.ts): look the class up in
the `signedDecoratorToMetaMap` registry and fall back to `defaultMeta`
when it is absent.  The function is total: it never throws. -/
def getDecoratorsMeta (registry : List (ClassId × DecoratorMeta))
    (ctor : ClassId) : DecoratorMeta :=
  match getOwn registry ctor with
  | some meta => meta
  | none => defaultMeta

/-! ## Helper lemmas about object property read/write -/

theorem lookupD_setKey_self {α : Type} (m : List (String × α)) (k : String)
    (v d : α) : lookupD (setKey m k v) k d = v := by
  induction m with
  | nil => simp [setKey, lookupD]
  | cons p rest ih =>
    obtain ⟨k', v'⟩ := p
    by_cases h : k' = k
    · simp [setKey, h, lookupD]
    · simp [setKey, h, lookupD, ih]

theorem lookupD_setKey_ne {α : Type} (m : List (String × α)) (k k' : String)
    (v d : α) (h : k' ≠ k) : lookupD (setKey m k v) k' d = lookupD m k' d := by
  induction m with
  | nil => simp [setKey, lookupD, Ne.symm h]
  | cons p rest ih =>
    obtain ⟨k'', v''⟩ := p
    by_cases h' : k'' = k
    · subst h'
      simp [setKey, lookupD, Ne.symm h]
    · simp [setKey, h', lookupD, ih]

theorem lookup_setKey_self {α : Type} (m : List (String × α)) (k : String)
    (v : α) : getOwn (setKey m k v) k = some v := by
  induction m with
  | nil => simp [setKey, getOwn]
  | cons p rest ih =>
    obtain ⟨k', v'⟩ := p
    by_cases h : k' = k
    · simp [setKey, h, getOwn]
    · simp [setKey, h, getOwn, ih]

theorem lookup_setKey_ne {α : Type} (m : List (String × α)) (k k' : String)
    (v : α) (h : k' ≠ k) : getOwn (setKey m k v) k' = getOwn m k' := by
  induction m with
  | nil => simp [setKey, getOwn, Ne.symm h]
  | cons p rest ih =>
    obtain ⟨k'', v''⟩ := p
    by_cases h' : k'' = k
    · subst h'
      simp [setKey, getOwn, Ne.symm h]
    · simp [setKey, h', getOwn, ih]

theorem lookup_observedFold_preserved (is : List Nat) (proto : Proto)
    (k : String) (h : getOwn proto k = some (.observedField k)) :
    getOwn (is.foldl installObservedFieldStep proto) k =
      some (.observedField k) := by
  induction is generalizing proto with
  | nil => simpa using h
  | cons j rest ih =>
    simp only [List.foldl_cons]
    apply ih
    by_cases hj : k = toString j
    · subst hj
      exact lookup_setKey_self _ _ _
    · rw [installObservedFieldStep, lookup_setKey_ne _ _ _ _ hj]
      exact h

theorem lookup_observedFold_of_mem (is : List Nat) (proto : Proto) (i : Nat)
    (h : i ∈ is) :
    getOwn (is.foldl installObservedFieldStep proto) (toString i) =
      some (.observedField (toString i)) := by
  induction is generalizing proto with
  | nil => cases h
  | cons j rest ih =>
    simp only [List.foldl_cons]
    rcases List.mem_cons.mp h with hj | hm
    · subst hj
      exact lookup_observedFold_preserved rest _ _ (lookup_setKey_self _ _ _)
    · exact ih _ hm

theorem lookup_observedFold_untouched (is : List Nat) (proto : Proto)
    (k : String) (h : ∀ j ∈ is, k ≠ toString j) :
    getOwn (is.foldl installObservedFieldStep proto) k =
      getOwn proto k := by
  induction is generalizing proto with
  | nil => rfl
  | cons j rest ih =>
    simp only [List.foldl_cons]
    rw [ih _ (fun j' hj' => h j' (List.mem_cons_of_mem _ hj'))]
    rw [installObservedFieldStep, lookup_setKey_ne _ _ _ _ (h j (List.mem_cons_self _ _))]

/-! ## Claim theorems -/

/-- C6: for every class never passed to `registerDecorators` (no registry
entry), `getDecoratorsMeta` returns the default record whose
`apiMethods`, `apiFields`, `wiredMethods` and `wiredFields` lists are all
empty; the lookup is a total function, so it never fails. -/
theorem getDecoratorsMeta_unregistered_default
    (registry : List (ClassId × DecoratorMeta)) (ctor : ClassId)
    (h : getOwn registry ctor = none) :
    getDecoratorsMeta registry ctor = defaultMeta ∧
    (getDecoratorsMeta registry ctor).apiMethods = [] ∧
    (getDecoratorsMeta registry ctor).apiFields = [] ∧
    (getDecoratorsMeta registry ctor).wiredMethods = [] ∧
    (getDecoratorsMeta registry ctor).wiredFields = [] := by
  simp [getDecoratorsMeta, h, defaultMeta]

theorem getDecoratorsMeta_unregistered_default_witness :
    getDecoratorsMeta [] 0 = defaultMeta ∧
    (getDecoratorsMeta [] 0).apiFields = [] := by
  obtain ⟨h1, _, h3, _, _⟩ := getDecoratorsMeta_unregistered_default [] 0 rfl
  exact ⟨h1, h3⟩

/-- C7: for every wired field installed by `registerDecorators`, any
assignment through the installed descriptor is silently ignored (the VM,
and hence the stored wired value, is unchanged), while every read
notifies `valueObserved` for (instance, key) and returns the currently
stored wired value. -/
theorem wired_field_write_ignored_read_observed (vm : VM) (key : String)
    (v : JSValue) :
    wireFieldSet vm key v = vm ∧
    (wireFieldGet (wireFieldSet vm key v) key).1 = lookupD vm.cmpFields key .undefined ∧
    (wireFieldGet vm key).2 = [(vm.component, key)] :=
  ⟨rfl, rfl, rfl⟩

/-- C8: a wire declaration with static config `{kind: 'x'}` and absent
dynamic params yields a config extractor that, applied to any host
object, returns exactly `{kind: 'x'}` (and, being a pure function, does so
on every call) while reading no host property, hence registering no
reactive dependency. -/
theorem static_config_extractor_constant (host : JSValue) :
    buildConfigExtractor (some [("kind", .str "x")]) none host =
      (.ok [("kind", .str "x")], []) :=
  rfl

/-- C10: the deprecated wire-service `register` never throws its
validation errors for an object adapter id: the `TypeError` values for a
non-callable factory and for an already-associated adapter id are
constructed but not thrown, the call returns normally, and
`adapterId.adapter` is unconditionally (re)assigned. -/
theorem register_never_throws (adapterId : AdapterIdObj)
    (callbackIsFunction : Bool) (freshAdapterClass : Nat) :
    (register adapterId callbackIsFunction freshAdapterClass).thrown = none ∧
    (register adapterId callbackIsFunction freshAdapterClass).updated.adapter
      = some freshAdapterClass ∧
    (callbackIsFunction = false →
      "adapter factory must be a callable" ∈
        (register adapterId callbackIsFunction freshAdapterClass).constructedErrors) ∧
    (adapterId.adapter.isSome = true →
      "adapter id is already associated to an adapter factory" ∈
        (register adapterId callbackIsFunction freshAdapterClass).constructedErrors) := by
  obtain ⟨a⟩ := adapterId
  cases a <;> cases callbackIsFunction <;> simp [register]

theorem register_never_throws_witness :
    (register ⟨some 5⟩ false 9).thrown = none ∧
    (register ⟨some 5⟩ false 9).updated.adapter = some 9 ∧
    "adapter factory must be a callable" ∈
      (register ⟨some 5⟩ false 9).constructedErrors ∧
    "adapter id is already associated to an adapter factory" ∈
      (register ⟨some 5⟩ false 9).constructedErrors := by
  obtain ⟨h1, h2, h3, h4⟩ := register_never_throws ⟨some 5⟩ false 9
  exact ⟨h1, h2, h3 rfl, h4 rfl⟩

/-- C5: after the initial synchronous config observation, a
dependency-mutation notification arriving while `hasPendingConfig` is set
schedules nothing (the state is unchanged); within one synchronous task,
any positive number of mutations leads to exactly one scheduled batching
micro-task, with the flag set by the first mutation: running the batched
task clears the flag and performs exactly one adapter `update` call. -/
theorem connector_config_batching :
    (∀ s : ConnectorState, s.hasPendingConfig = true →
      connectorNotifyMutation s = s) ∧
    (connectorNotifyMutation connectorInitial).hasPendingConfig = true ∧
    (∀ n : Nat, 1 ≤ n →
      connectorNotifyMutation^[n] connectorInitial =
        { hasPendingConfig := true, pendingTasks := 1, updateCalls := 0 }) ∧
    (∀ n : Nat, 1 ≤ n →
      (connectorRunBatchedTask
          (connectorNotifyMutation^[n] connectorInitial)).hasPendingConfig
        = false ∧
      (connectorRunBatchedTask
          (connectorNotifyMutation^[n] connectorInitial)).updateCalls = 1) := by
  have hfix : ∀ s : ConnectorState, s.hasPendingConfig = true →
      connectorNotifyMutation s = s := by
    intro s hs
    simp [connectorNotifyMutation, hs]
  have hone : ∀ n : Nat, 1 ≤ n →
      connectorNotifyMutation^[n] connectorInitial =
        { hasPendingConfig := true, pendingTasks := 1, updateCalls := 0 } := by
    intro n hn
    obtain ⟨m, rfl⟩ := Nat.exists_eq_add_of_le hn
    rw [Nat.add_comm, Function.iterate_add_apply]
    have h1 : connectorNotifyMutation^[1] connectorInitial =
        { hasPendingConfig := true, pendingTasks := 1, updateCalls := 0 } := rfl
    rw [h1]
    exact Function.iterate_fixed (hfix _ rfl) m
  refine ⟨hfix, rfl, hone, ?_⟩
  intro n hn
  rw [hone n hn]
  exact ⟨rfl, rfl⟩

theorem connector_config_batching_witness :
    connectorNotifyMutation
        { hasPendingConfig := true, pendingTasks := 1, updateCalls := 0 } =
      { hasPendingConfig := true, pendingTasks := 1, updateCalls := 0 } ∧
    connectorNotifyMutation^[3] connectorInitial =
      { hasPendingConfig := true, pendingTasks := 1, updateCalls := 0 } ∧
    (connectorRunBatchedTask
        (connectorNotifyMutation^[3] connectorInitial)).updateCalls = 1 :=
  ⟨connector_config_batching.1 _ rfl,
   connector_config_batching.2.2.1 3 (by decide),
   (connector_config_batching.2.2.2 3 (by decide)).2⟩

/-- C4: for every registered public field, outside construction,
assigning through the installed descriptor stores the value in the
per-instance public-property storage so that a subsequent read returns it;
the assignment issues exactly one `valueMutated` notification for
(instance, key) when the instance is not dirty, and none when the
instance is already dirty. -/
theorem public_field_set_then_get (vm : VM) (key : String) (v : JSValue)
    (hc : vm.isBeingConstructed = false) :
    (publicPropertyGet (publicPropertySet vm key v).1 key).1 = v ∧
    (vm.isDirty = false →
      (publicPropertySet vm key v).2 = [(vm.component, key)]) ∧
    (vm.isDirty = true → (publicPropertySet vm key v).2 = []) := by
  have hfst : (publicPropertySet vm key v).1 =
      { vm with cmpProps := setKey vm.cmpProps key v } := by
    unfold publicPropertySet
    cases vm.isDirty <;> simp
  refine ⟨?_, ?_, ?_⟩
  · rw [hfst]
    simp [publicPropertyGet, hc, lookupD_setKey_self]
  · intro hd
    simp [publicPropertySet, hd]
  · intro hd
    simp [publicPropertySet, hd]

theorem public_field_set_then_get_witness :
    (publicPropertyGet
        (publicPropertySet
          { component := 3, cmpProps := [], cmpFields := [],
            isDirty := false, isBeingConstructed := false } "x" (.num 1)).1
        "x").1 = .num 1 ∧
    (publicPropertySet
        { component := 3, cmpProps := [], cmpFields := [],
          isDirty := false, isBeingConstructed := false } "x" (.num 1)).2 =
      [(3, "x")] := by
  obtain ⟨h1, h2, _⟩ := public_field_set_then_get
    { component := 3, cmpProps := [], cmpFields := [],
      isDirty := false, isBeingConstructed := false } "x" (.num 1) rfl
  exact ⟨h1, h2 rfl⟩

/-- C9: when `registerDecorators` receives a non-empty `fields` array of
field names, the `for...in` traversal of the array installs the
observed-field descriptors under the index keys `"0"`, `"1"`, … of the
array, and the listed field names themselves (which, being identifiers,
are not decimal index strings) receive no descriptor. -/
theorem registerDecorators_fields_index_keys (proto : Proto) (fs : List String)
    (_hne : fs ≠ [])
    (hnames : ∀ name ∈ fs, ∀ i, i < fs.length → name ≠ toString i) :
    registerDecorators proto
        { publicProps := none, publicMethods := none, wire := none,
          track := none, fields := some fs } =
      .ok (installObservedFields proto fs,
        { apiMethods := [], apiFields := [],
          wiredMethods := [], wiredFields := [] }) ∧
    (∀ i, i < fs.length →
      getOwn (installObservedFields proto fs) (toString i) =
        some (.observedField (toString i))) ∧
    (∀ name ∈ fs, getOwn (installObservedFields proto fs) name =
        getOwn proto name) := by
  refine ⟨rfl, ?_, ?_⟩
  · intro i hi
    exact lookup_observedFold_of_mem _ _ _ (List.mem_range.mpr hi)
  · intro name hname
    exact lookup_observedFold_untouched _ _ _
      (fun j hj => hnames name hname j (List.mem_range.mp hj))

theorem registerDecorators_fields_index_keys_witness :
    registerDecorators []
        { publicProps := none, publicMethods := none, wire := none,
          track := none, fields := some ["record"] } =
      .ok ([("0", .observedField "0")],
        { apiMethods := [], apiFields := [],
          wiredMethods := [], wiredFields := [] }) ∧
    getOwn (installObservedFields [] ["record"]) "record" = none := by
  have h := registerDecorators_fields_index_keys [] ["record"] (by simp)
    (by
      intro name hname i hi
      simp only [List.length_singleton] at hi
      have hi0 : i = 0 := Nat.lt_one_iff.mp hi
      subst hi0
      simp only [List.mem_singleton] at hname
      subst hname
      decide)
  refine ⟨?_, ?_⟩
  · rw [h.1]
    rfl
  · have h2 := h.2.2 "record" (by simp)
    simpa [getOwn] using h2

/-- C1: evaluation of the adapter event target at the failing input of the
accumulation claim.  Dispatching two context-link events with the same uid
and different callbacks leaves `contexting[uid] = [cb1]` — the second
callback is pushed onto the record itself (keys `"0"` and `"length"`), not
onto `contexting[uid]` — so a subsequent `context(uid, value)` invokes
only the first callback, not both. -/
theorem linkcontext_same_uid_second_callback_lost :
    ((do
      let (s1, _) ← dispatchEvent (wireAdapterNew true) (.linkContext "ctx-uid" 1)
      let (s2, _) ← dispatchEvent s1 (.linkContext "ctx-uid" 2)
      pure s2.contexting) : Except JsErr (List (String × CtxVal))) =
      .ok [("ctx-uid", .listeners [1]), ("0", .single 2), ("length", .num 1)] ∧
    ((do
      let (s1, _) ← dispatchEvent (wireAdapterNew true) (.linkContext "ctx-uid" 1)
      let (s2, _) ← dispatchEvent s1 (.linkContext "ctx-uid" 2)
      pure (contextDeliver s2 "ctx-uid")) : Except JsErr (List Listener)) =
      .ok [1] :=
  ⟨rfl, rfl⟩

/-- C2: evaluation of the wired-field data callback at the failing input
of the storage claim.  `createFieldDataCallback` closes over the free
identifier `name` (the global binding), not the wired field's key, so
delivering a value for wired field `"data"` stores it under the global
name and notifies `valueMutated` for the global name: the subsequent read
of `"data"` still returns `undefined`. -/
theorem field_data_callback_stores_under_global_name (globalName : String)
    (h : globalName ≠ "data") :
    (wireFieldGet
        (createFieldDataCallback globalName
          { component := 7, cmpProps := [], cmpFields := [],
            isDirty := false, isBeingConstructed := false } (.num 42)).1
        "data").1 = .undefined ∧
    (createFieldDataCallback globalName
        { component := 7, cmpProps := [], cmpFields := [],
          isDirty := false, isBeingConstructed := false } (.num 42)).2 =
      [(7, globalName)] ∧
    (7, "data") ∉ (createFieldDataCallback globalName
        { component := 7, cmpProps := [], cmpFields := [],
          isDirty := false, isBeingConstructed := false } (.num 42)).2 := by
  refine ⟨?_, rfl, ?_⟩
  · simp [createFieldDataCallback, wireFieldGet, setKey, lookupD, h]
  · simp [createFieldDataCallback, Prod.ext_iff]
    exact fun heq => (h heq.symm).elim

theorem field_data_callback_global_name_witness :
    (wireFieldGet
        (createFieldDataCallback ""
          { component := 7, cmpProps := [], cmpFields := [],
            isDirty := false, isBeingConstructed := false } (.num 42)).1
        "data").1 = .undefined ∧
    (createFieldDataCallback ""
        { component := 7, cmpProps := [], cmpFields := [],
          isDirty := false, isBeingConstructed := false } (.num 42)).2 =
      [(7, "")] := by
  obtain ⟨h1, h2, _⟩ :=
    field_data_callback_stores_under_global_name "" (by decide)
  exact ⟨h1, h2⟩

/-- C3: evaluation of `getReactiveParameterValue` at the failing inputs of
the traversal claim.  The tail-loop guard is inverted
(`if (value != null) return undefined`): for `foo.bar` on a host where
`host.foo = {bar: 5}` the code returns `undefined` instead of `5`, and on
a host where `host.foo = null` it evaluates `null["bar"]` and throws a
`TypeError` instead of short-circuiting to `undefined`. -/
theorem reactive_parameter_tail_guard_inverted :
    buildReactiveParameter "foo.bar" =
      { reference := "foo.bar", head := "foo", tail := ["bar"] } ∧
    getReactiveParameterValue
        (.obj [("foo", .obj [("bar", .num 5)])])
        (buildReactiveParameter "foo.bar") = .ok .undefined ∧
    getReactiveParameterValue (.obj [("foo", .null)])
        (buildReactiveParameter "foo.bar") =
      .error (.typeError "Cannot read properties of null") :=
  ⟨rfl, rfl, rfl⟩

end LWC
